import Mathlib

set_option maxRecDepth 1024

/-!
Verification development for the Py7TDMI repository, an instruction-level
interpreter for an ARM7TDMI subset.  The repository holds two near-identical
variants of the interpreter: src/Py7TDMI.py (whose execution loop keeps the
program counter in a dedicated variable, separate from the register file) and
src/PyTDMI7.py (whose execution loop keeps the program counter in register 15).
The condition evaluator and the barrel shifter are textually identical across
the two files and are embedded once; the per-cycle execution loops are embedded
separately as cycleA (Py7TDMI) and cycleB (PyTDMI7).

Machine integers are modelled as Nat with explicit masking modulo 2^32, and
Python arbitrary-precision intermediates as Int where a value can go negative.
Memory accesses carry Python list-indexing semantics: an index outside the
array raises, modelled as Option.none.
-/

namespace Py7

/-- ARM condition check over the CPSR bits 31..28 (N, Z, C, V).
Embeds check_condition, src/Py7TDMI.py lines 37-57; the copy in
src/PyTDMI7.py lines 36-56 is textually identical. -/
def check_condition (cond cpsr : Nat) : Bool :=
  let N := (cpsr >>> 31) &&& 1
  let Z := (cpsr >>> 30) &&& 1
  let C := (cpsr >>> 29) &&& 1
  let V := (cpsr >>> 28) &&& 1
  if cond == 0x0 then Z == 1
  else if cond == 0x1 then Z == 0
  else if cond == 0x2 then C == 1
  else if cond == 0x3 then C == 0
  else if cond == 0x4 then N == 1
  else if cond == 0x5 then N == 0
  else if cond == 0x6 then V == 1
  else if cond == 0x7 then V == 0
  else if cond == 0x8 then (C == 1) && (Z == 0)
  else if cond == 0x9 then (C == 0) || (Z == 1)
  else if cond == 0xA then N == V
  else if cond == 0xB then N != V
  else if cond == 0xC then (Z == 0) && (N == V)
  else if cond == 0xD then (Z == 1) || (N != V)
  else true

/-- Reinterpretation of a 32-bit unsigned value as a signed int32; the effect
of the np.int32 cast on a uint32 bit pattern. -/
def int32 (val : Nat) : Int := if val < 2 ^ 31 then (val : Int) else (val : Int) - 2 ^ 32

/-- Right shift of a signed integer: the Python shift operator on int is floor
division by the corresponding power of two. -/
def pyShr (n : Int) (k : Nat) : Int := Int.fdiv n (2 ^ k)

/-- Barrel shifter, src/Py7TDMI.py lines 62-99; the copy in src/PyTDMI7.py
lines 61-93 is textually identical.  The carry-in is CPSR bit 29.  The result
is an Int because the ASR branch for a nonzero amount shifts an np.int32 value
and returns it without masking, so the result can be negative there; every
other branch produces a masked 32-bit Nat.  A shift_type outside 0..3 leaves
the initialization (val, C) in place, mirroring the if/elif chain falling
through. -/
def barrel_shift (val shift_type shift_amount cpsr : Nat) : Int × Nat :=
  let C := (cpsr >>> 29) &&& 1
  if shift_type == 0 then
    if shift_amount == 0 then ((val : Int), C)
    else ((((val <<< shift_amount) &&& 0xFFFFFFFF : Nat) : Int),
          (val >>> (32 - shift_amount)) &&& 1)
  else if shift_type == 1 then
    if shift_amount == 0 then ((0 : Int), (val >>> 31) &&& 1)
    else ((((val >>> shift_amount) &&& 0xFFFFFFFF : Nat) : Int),
          (val >>> (shift_amount - 1)) &&& 1)
  else if shift_type == 2 then
    if shift_amount == 0 then
      ((if (val &&& 0x80000000) != 0 then (0xFFFFFFFF : Int) else 0), (val >>> 31) &&& 1)
    else (pyShr (int32 val) shift_amount, (val >>> (shift_amount - 1)) &&& 1)
  else if shift_type == 3 then
    if shift_amount == 0 then
      (((((C <<< 31) ||| (val >>> 1)) &&& 0xFFFFFFFF : Nat) : Int), val &&& 1)
    else (((((val >>> shift_amount) ||| (val <<< (32 - shift_amount))) &&& 0xFFFFFFFF : Nat) : Int),
          (val >>> (shift_amount - 1)) &&& 1)
  else ((val : Int), C)

/-- Reduction of a Python arbitrary-precision intermediate modulo 2^32: the
meaning of the source's mask with 0xFFFFFFFF applied to a possibly negative
int. -/
def mask32 (x : Int) : Nat := (x % (2 ^ 32 : Int)).toNat

/-- Python bitwise complement of a value followed by the 32-bit mask.  Used
for MVN directly; BIC applies an unmasked complement, which coincides with
this for operands below 2^32 (the only reachable operands). -/
def pyNot32 (v : Nat) : Nat := mask32 (-(v : Int) - 1)

/-- The 16-way data-processing opcode dispatch of the execute stage,
src/Py7TDMI.py lines 199-234 and src/PyTDMI7.py lines 141-192 (identical).
The source initializes result to 0 before the if/elif chain, so a value
outside 0..15 would fall through to 0. -/
def dp_result (opcode rnVal val2 carry_in : Nat) : Nat :=
  if opcode == 0x0 then rnVal &&& val2
  else if opcode == 0x1 then rnVal ^^^ val2
  else if opcode == 0x2 then mask32 ((rnVal : Int) - (val2 : Int))
  else if opcode == 0x3 then mask32 ((val2 : Int) - (rnVal : Int))
  else if opcode == 0x4 then mask32 ((rnVal : Int) + (val2 : Int))
  else if opcode == 0x5 then mask32 ((rnVal : Int) + (val2 : Int) + (carry_in : Int))
  else if opcode == 0x6 then mask32 ((rnVal : Int) - (val2 : Int) - (1 - (carry_in : Int)))
  else if opcode == 0x7 then mask32 ((val2 : Int) - (rnVal : Int) - (1 - (carry_in : Int)))
  else if opcode == 0x8 then rnVal &&& val2
  else if opcode == 0x9 then rnVal ^^^ val2
  else if opcode == 0xA then mask32 ((rnVal : Int) - (val2 : Int))
  else if opcode == 0xB then mask32 ((rnVal : Int) + (val2 : Int))
  else if opcode == 0xC then rnVal ||| val2
  else if opcode == 0xD then val2
  else if opcode == 0xE then rnVal &&& pyNot32 val2
  else if opcode == 0xF then pyNot32 val2
  else 0

/-- The operand-2 selection of the execute stage: the 12-bit immediate field
when bit 25 of the instruction is set, else the register named by the low 4
bits.  No barrel shift is applied: barrel_shift is never invoked by either
execution loop. -/
def dp_val2 (regs : List Nat) (instr : Nat) : Nat :=
  if (instr >>> 25) &&& 1 == 1 then instr &&& 0xFFF else regs.getD (instr &&& 0xF) 0

/-- The data-processing result of one instruction against a register file and
flags: dp_result applied to the decoded opcode, rn value, operand 2 and the
carry-in read from CPSR bit 29. -/
def dpres (regs : List Nat) (cpsr instr : Nat) : Nat :=
  dp_result ((instr >>> 21) &&& 0xF) (regs.getD ((instr >>> 16) &&& 0xF) 0)
    (dp_val2 regs instr) ((cpsr >>> 29) &&& 1)

/-- The data-processing execute stage shared verbatim by both variants:
decode the DP fields, compute the result, write rd unless the opcode is one
of TST/TEQ/CMP/CMN, and rewrite the CPSR by keeping its low 28 bits while
installing N and Z computed from the result (src/Py7TDMI.py lines 180-241,
src/PyTDMI7.py lines 122-200; the flag-update guard at PyTDMI7.py line 199 is
a tautology, so both variants update the CPSR unconditionally). -/
def dp_stage (regs : List Nat) (cpsr instr : Nat) : List Nat × Nat :=
  let opcode := (instr >>> 21) &&& 0xF
  let rd := (instr >>> 12) &&& 0xF
  let result := dpres regs cpsr instr
  (if opcode == 0x8 || opcode == 0x9 || opcode == 0xA || opcode == 0xB then regs
   else regs.set rd result,
   (cpsr &&& 0x0FFFFFFF) ||| ((result >>> 31) <<< 31) |||
     ((if result == 0 then 1 else 0) <<< 30))

/-- Byte read with Python list-indexing semantics: an index at or beyond the
array length raises, modelled as none. -/
def readByte (mem : List Nat) (a : Nat) : Option Nat :=
  if a < mem.length then some (mem.getD a 0) else none

/-- Little-endian composition of four bytes, the byte-combine pattern shared
by the 32-bit instruction fetch and the LDR path. -/
def read_word (mem : List Nat) (a : Nat) : Option Nat :=
  match readByte mem a, readByte mem (a + 1), readByte mem (a + 2), readByte mem (a + 3) with
  | some b0, some b1, some b2, some b3 =>
      some (b0 ||| (b1 <<< 8) ||| (b2 <<< 16) ||| (b3 <<< 24))
  | _, _, _, _ => none

/-- Little-endian composition of two bytes, the 16-bit fetch used when the
thumb flag is set. -/
def read_half (mem : List Nat) (a : Nat) : Option Nat :=
  match readByte mem a, readByte mem (a + 1) with
  | some b0, some b1 => some (b0 ||| (b1 <<< 8))
  | _, _ => none

/-- Byte write with Python list-indexing semantics. -/
def writeByte (mem : List Nat) (a v : Nat) : Option (List Nat) :=
  if a < mem.length then some (mem.set a v) else none

/-- The STR path: decompose a register into four little-endian bytes at
addr..addr+3, each store masked to a byte. -/
def store_word (mem : List Nat) (a v : Nat) : Option (List Nat) :=
  (writeByte mem a (v &&& 0xFF)).bind fun m1 =>
  (writeByte m1 (a + 1) ((v >>> 8) &&& 0xFF)).bind fun m2 =>
  (writeByte m2 (a + 2) ((v >>> 16) &&& 0xFF)).bind fun m3 =>
  writeByte m3 (a + 3) ((v >>> 24) &&& 0xFF)

/-- Sign extension of the 24-bit branch offset field to a 32-bit pattern: when
bit 23 of the offset is set the source ors in 0xFF000000. -/
def sext24 (instr : Nat) : Nat :=
  let offset := instr &&& 0x00FFFFFF
  if (offset &&& 0x00800000) != 0 then offset ||| 0xFF000000 else offset

/-- Architectural state of the Py7TDMI.py variant: its jit_full_cpu threads
the register file, a dedicated pc variable and the cpsr, mutating memory in
place. -/
structure MachineA where
  memory : List Nat
  regs : List Nat
  pc : Nat
  cpsr : Nat
deriving DecidableEq

/-- Branch / load-store dispatch of src/Py7TDMI.py lines 246-274, applied to
the register file and flags already updated by the DP stage.  The branch
target adds the sign-extended offset, shifted left by 2 at full precision,
onto the post-increment pc, masking the sum to 32 bits. -/
def branchMemA (mem : List Nat) (regs : List Nat) (pc cpsr instr rd rn : Nat) :
    Option MachineA :=
  if (instr &&& 0x0F000000) == 0x0A000000 then
    some ⟨mem, regs, (pc + (sext24 instr <<< 2)) % 2 ^ 32, cpsr⟩
  else if (instr &&& 0x0F000000) == 0x0B000000 then
    some ⟨mem, regs.set 14 pc, (pc + (sext24 instr <<< 2)) % 2 ^ 32, cpsr⟩
  else if (instr &&& 0x0C000000) == 0x04000000 then
    let addr := regs.getD rn 0
    if ((instr >>> 20) &&& 1) == 1 then
      match read_word mem addr with
      | some v => some ⟨mem, regs.set rd v, pc, cpsr⟩
      | none => none
    else
      match store_word mem addr (regs.getD rd 0) with
      | some mem' => some ⟨mem', regs, pc, cpsr⟩
      | none => none
  else
    some ⟨mem, regs, pc, cpsr⟩

/-- One iteration of the batch loop of src/Py7TDMI.py jit_full_cpu (lines
152-274): fetch at the dedicated pc variable, advance pc by the fetch width,
gate on the condition field, run the DP stage, then dispatch branch or
load-store. -/
def cycleA (thumb : Bool) (m : MachineA) : Option MachineA :=
  match (if thumb then read_half m.memory m.pc else read_word m.memory m.pc) with
  | none => none
  | some instr =>
    let pc := m.pc + (if thumb then 2 else 4)
    let cond := (instr >>> 28) &&& 0xF
    if check_condition cond m.cpsr then
      let rd := (instr >>> 12) &&& 0xF
      let rn := (instr >>> 16) &&& 0xF
      let rc := dp_stage m.regs m.cpsr instr
      branchMemA m.memory rc.1 pc rc.2 instr rd rn
    else
      some ⟨m.memory, m.regs, pc, m.cpsr⟩

/-- The bounded batch loop of the Py7TDMI.py variant: n iterations of cycleA.
An out-of-bounds access aborts the rest of the batch (an uncaught IndexError
in the Python source), producing none. -/
def runA (thumb : Bool) : Nat → MachineA → Option MachineA
  | 0, m => some m
  | n + 1, m => (cycleA thumb m).bind (runA thumb n)

/-- Architectural state of the PyTDMI7.py variant: its jit_full_cpu threads
only the register file and the cpsr, holding the program counter in register
15. -/
structure MachineB where
  memory : List Nat
  regs : List Nat
  cpsr : Nat
deriving DecidableEq

/-- Branch / load-store dispatch of src/PyTDMI7.py lines 203-228: targets are
computed from register 15 (as possibly rewritten by the DP stage), and
branch-with-link copies register 15 into register 14 before redirecting. -/
def branchMemB (mem : List Nat) (regs : List Nat) (cpsr instr rd rn : Nat) :
    Option MachineB :=
  if (instr &&& 0x0F000000) == 0x0A000000 then
    some ⟨mem, regs.set 15 ((regs.getD 15 0 + (sext24 instr <<< 2)) % 2 ^ 32), cpsr⟩
  else if (instr &&& 0x0F000000) == 0x0B000000 then
    let regs' := regs.set 14 (regs.getD 15 0)
    some ⟨mem, regs'.set 15 ((regs'.getD 15 0 + (sext24 instr <<< 2)) % 2 ^ 32), cpsr⟩
  else if (instr &&& 0x0C000000) == 0x04000000 then
    let addr := regs.getD rn 0
    if ((instr >>> 20) &&& 1) == 1 then
      match read_word mem addr with
      | some v => some ⟨mem, regs.set rd v, cpsr⟩
      | none => none
    else
      match store_word mem addr (regs.getD rd 0) with
      | some mem' => some ⟨mem', regs, cpsr⟩
      | none => none
  else
    some ⟨mem, regs, cpsr⟩

/-- One iteration of the batch loop of src/PyTDMI7.py jit_full_cpu (lines
105-228): fetch at the address held in register 15, write the advanced pc back
into register 15, gate on the condition field, run the DP stage, then dispatch
branch or load-store. -/
def cycleB (thumb : Bool) (m : MachineB) : Option MachineB :=
  let pc0 := m.regs.getD 15 0
  match (if thumb then read_half m.memory pc0 else read_word m.memory pc0) with
  | none => none
  | some instr =>
    let regs0 := m.regs.set 15 (pc0 + (if thumb then 2 else 4))
    let cond := (instr >>> 28) &&& 0xF
    if check_condition cond m.cpsr then
      let rd := (instr >>> 12) &&& 0xF
      let rn := (instr >>> 16) &&& 0xF
      let rc := dp_stage regs0 m.cpsr instr
      branchMemB m.memory rc.1 rc.2 instr rd rn
    else
      some ⟨m.memory, regs0, m.cpsr⟩

/-- The bounded batch loop of the PyTDMI7.py variant. -/
def runB (thumb : Bool) : Nat → MachineB → Option MachineB
  | 0, m => some m
  | n + 1, m => (cycleB thumb m).bind (runB thumb n)

/-- Architectural shifter as worded by the specification claim: result and
carry-out per kind, with the amount-0 special cases (LSL passthrough, LSR#32,
ASR#32, RRX) and, for amounts 1..31, the conventional 32-bit shift or rotate
with carry-out the last bit shifted out.  Used only as the comparison point
for the refinement claim about barrel_shift; written from the claim's words,
not from the source. -/
def shift_spec (val kind amount carryIn : Nat) : Nat × Nat :=
  if amount = 0 then
    if kind = 0 then (val, carryIn)
    else if kind = 1 then (0, val / 2 ^ 31 % 2)
    else if kind = 2 then
      ((if val / 2 ^ 31 % 2 = 1 then 0xFFFFFFFF else 0), val / 2 ^ 31 % 2)
    else ((carryIn * 2 ^ 31) + val / 2, val % 2)
  else
    if kind = 0 then (val * 2 ^ amount % 2 ^ 32, val / 2 ^ (32 - amount) % 2)
    else if kind = 1 then (val / 2 ^ amount, val / 2 ^ (amount - 1) % 2)
    else if kind = 2 then
      ((if val / 2 ^ 31 % 2 = 1 then val / 2 ^ amount + (2 ^ 32 - 2 ^ (32 - amount))
        else val / 2 ^ amount),
       val / 2 ^ (amount - 1) % 2)
    else (val / 2 ^ amount + (val % 2 ^ amount) * 2 ^ (32 - amount),
          val / 2 ^ (amount - 1) % 2)

/-! Helper lemmas about the bit-level arithmetic used by the embedding. -/

/-- Extracting a flag bit is division followed by parity. -/
theorem shr_and_one (x k : Nat) : (x >>> k) &&& 1 = x / 2 ^ k % 2 := by
  rw [Nat.and_one_is_mod, Nat.shiftRight_eq_div_pow]

/-- Masking with 0xFFFFFFFF is reduction modulo 2^32. -/
theorem and_mask32 (x : Nat) : x &&& 0xFFFFFFFF = x % 2 ^ 32 := by
  have h := Nat.and_pow_two_sub_one_eq_mod x 32
  norm_num at h
  exact h

/-- Masking with 0x0FFFFFFF is reduction modulo 2^28. -/
theorem and_mask28 (x : Nat) : x &&& 0x0FFFFFFF = x % 2 ^ 28 := by
  have h := Nat.and_pow_two_sub_one_eq_mod x 28
  norm_num at h
  exact h

/-- The or that installs the N and Z bits over the low 28 CPSR bits is a plain
sum: all three pieces occupy disjoint bit ranges. -/
theorem cpsr_update_eq (cpsr N Z : Nat) (hZ : Z ≤ 1) :
    (cpsr &&& 0x0FFFFFFF) ||| (N <<< 31) ||| (Z <<< 30) =
      cpsr % 2 ^ 28 + N * 2 ^ 31 + Z * 2 ^ 30 := by
  rw [and_mask28, Nat.shiftLeft_eq, Nat.shiftLeft_eq]
  have h1 : N * 2 ^ 31 ||| Z * 2 ^ 30 = N * 2 ^ 31 + Z * 2 ^ 30 := by
    have hz : Z * 2 ^ 30 < 2 ^ 31 := by
      calc Z * 2 ^ 30 ≤ 1 * 2 ^ 30 := Nat.mul_le_mul_right _ hZ
        _ < 2 ^ 31 := by norm_num
    have := Nat.mul_add_lt_is_or hz N
    rw [Nat.mul_comm (2 ^ 31) N] at this
    omega
  have h2 : cpsr % 2 ^ 28 ||| (N * 2 ^ 31 + Z * 2 ^ 30) =
      N * 2 ^ 31 + Z * 2 ^ 30 + cpsr % 2 ^ 28 := by
    have hlow : cpsr % 2 ^ 28 < 2 ^ 28 := Nat.mod_lt _ (by norm_num)
    have hmul : N * 2 ^ 31 + Z * 2 ^ 30 = 2 ^ 28 * (N * 2 ^ 3 + Z * 2 ^ 2) := by ring
    have := Nat.mul_add_lt_is_or hlow (N * 2 ^ 3 + Z * 2 ^ 2)
    rw [← hmul] at this
    rw [Nat.lor_comm, ← this]
  rw [Nat.lor_assoc, h1, h2]
  ring

/-- An and with a two-power isolates one bit. -/
theorem and_two_pow_eq (x i : Nat) :
    x &&& 2 ^ i = if x.testBit i then 2 ^ i else 0 := by
  apply Nat.eq_of_testBit_eq
  intro j
  by_cases hij : i = j
  · subst hij
    by_cases hb : x.testBit i <;> simp [hb, Nat.testBit_two_pow]
  · by_cases hb : x.testBit i <;>
      simp [hb, Nat.testBit_two_pow, hij, Ne.symm hij]

/-- Testing a bit through the mask-and-compare idiom of the source matches the
division form used by the specification. -/
theorem and_two_pow_ne_zero_iff (x i : Nat) :
    (x &&& 2 ^ i ≠ 0) ↔ x / 2 ^ i % 2 = 1 := by
  rw [and_two_pow_eq]
  have htb := @Nat.testBit_to_div_mod i x
  cases hb : x.testBit i
  · rw [hb] at htb
    have hne : ¬(x / 2 ^ i % 2 = 1) := of_decide_eq_false htb.symm
    simp [hne]
  · rw [hb] at htb
    have heq : x / 2 ^ i % 2 = 1 := of_decide_eq_true htb.symm
    simp [heq, (Nat.two_pow_pos i).ne']

/-- The result of mask32 is a 32-bit value. -/
theorem mask32_lt (x : Int) : mask32 x < 2 ^ 32 := by
  unfold mask32
  have h1 : 0 ≤ x % (2 ^ 32 : Int) := Int.emod_nonneg x (by norm_num)
  have h2 : x % (2 ^ 32 : Int) < 2 ^ 32 := Int.emod_lt_of_pos x (by norm_num)
  omega

/-- Reading a register yields a 32-bit value whenever the file holds 32-bit
values. -/
theorem getD_lt_of_mem_lt (regs : List Nat) (i : Nat)
    (h : ∀ x ∈ regs, x < 2 ^ 32) : regs.getD i 0 < 2 ^ 32 := by
  rcases Nat.lt_or_ge i regs.length with hi | hi
  · have : regs.getD i 0 = regs[i] := by
      simp [List.getD_eq_getElem?_getD, List.getElem?_eq_getElem hi]
    rw [this]
    exact h _ (List.getElem_mem hi)
  · have : regs.getD i 0 = 0 := by
      simp [List.getD_eq_getElem?_getD, List.getElem?_eq_none hi]
    omega

/-- Every opcode of the dispatch produces a 32-bit result from 32-bit
operands. -/
theorem dp_result_lt (opcode rnVal val2 carry_in : Nat)
    (h1 : rnVal < 2 ^ 32) (h2 : val2 < 2 ^ 32) :
    dp_result opcode rnVal val2 carry_in < 2 ^ 32 := by
  unfold dp_result
  by_cases e0 : opcode == 0x0
  · rw [if_pos e0]; exact Nat.and_lt_two_pow _ h2
  rw [if_neg e0]
  by_cases e1 : opcode == 0x1
  · rw [if_pos e1]; exact Nat.xor_lt_two_pow h1 h2
  rw [if_neg e1]
  by_cases e2 : opcode == 0x2
  · rw [if_pos e2]; exact mask32_lt _
  rw [if_neg e2]
  by_cases e3 : opcode == 0x3
  · rw [if_pos e3]; exact mask32_lt _
  rw [if_neg e3]
  by_cases e4 : opcode == 0x4
  · rw [if_pos e4]; exact mask32_lt _
  rw [if_neg e4]
  by_cases e5 : opcode == 0x5
  · rw [if_pos e5]; exact mask32_lt _
  rw [if_neg e5]
  by_cases e6 : opcode == 0x6
  · rw [if_pos e6]; exact mask32_lt _
  rw [if_neg e6]
  by_cases e7 : opcode == 0x7
  · rw [if_pos e7]; exact mask32_lt _
  rw [if_neg e7]
  by_cases e8 : opcode == 0x8
  · rw [if_pos e8]; exact Nat.and_lt_two_pow _ h2
  rw [if_neg e8]
  by_cases e9 : opcode == 0x9
  · rw [if_pos e9]; exact Nat.xor_lt_two_pow h1 h2
  rw [if_neg e9]
  by_cases eA : opcode == 0xA
  · rw [if_pos eA]; exact mask32_lt _
  rw [if_neg eA]
  by_cases eB : opcode == 0xB
  · rw [if_pos eB]; exact mask32_lt _
  rw [if_neg eB]
  by_cases eC : opcode == 0xC
  · rw [if_pos eC]; exact Nat.or_lt_two_pow h1 h2
  rw [if_neg eC]
  by_cases eD : opcode == 0xD
  · rw [if_pos eD]; exact h2
  rw [if_neg eD]
  by_cases eE : opcode == 0xE
  · rw [if_pos eE]; exact Nat.and_lt_two_pow _ (mask32_lt _)
  rw [if_neg eE]
  by_cases eF : opcode == 0xF
  · rw [if_pos eF]; exact mask32_lt _
  rw [if_neg eF]
  norm_num

/-- The data-processing result is a 32-bit value on a 32-bit register file. -/
theorem dpres_lt (regs : List Nat) (cpsr instr : Nat)
    (h : ∀ x ∈ regs, x < 2 ^ 32) : dpres regs cpsr instr < 2 ^ 32 := by
  unfold dpres
  apply dp_result_lt
  · exact getD_lt_of_mem_lt _ _ h
  · unfold dp_val2
    split
    · have : instr &&& 0xFFF ≤ 0xFFF := Nat.and_le_right
      omega
    · exact getD_lt_of_mem_lt _ _ h

/-! Claim theorems. -/

/-- C3: for every combination of the four status bits (packed into CPSR bits
31..28) and each of the 15 defined condition codes, check_condition returns
exactly the documented ARM relation: EQ iff Z, NE iff not Z, CS iff C, CC iff
not C, MI iff N, PL iff not N, VS iff V, VC iff not V, HI iff C and not Z, LS
iff not C or Z, GE iff N equals V, LT iff N differs from V, GT iff not Z and N
equals V, LE iff Z or N differs from V, and AL unconditionally. -/
theorem c3_condition_truth_table : ∀ n z c v : Bool,
    check_condition 0x0 ((n.toNat <<< 31) ||| (z.toNat <<< 30) ||| (c.toNat <<< 29) ||| (v.toNat <<< 28)) = z ∧
    check_condition 0x1 ((n.toNat <<< 31) ||| (z.toNat <<< 30) ||| (c.toNat <<< 29) ||| (v.toNat <<< 28)) = !z ∧
    check_condition 0x2 ((n.toNat <<< 31) ||| (z.toNat <<< 30) ||| (c.toNat <<< 29) ||| (v.toNat <<< 28)) = c ∧
    check_condition 0x3 ((n.toNat <<< 31) ||| (z.toNat <<< 30) ||| (c.toNat <<< 29) ||| (v.toNat <<< 28)) = !c ∧
    check_condition 0x4 ((n.toNat <<< 31) ||| (z.toNat <<< 30) ||| (c.toNat <<< 29) ||| (v.toNat <<< 28)) = n ∧
    check_condition 0x5 ((n.toNat <<< 31) ||| (z.toNat <<< 30) ||| (c.toNat <<< 29) ||| (v.toNat <<< 28)) = !n ∧
    check_condition 0x6 ((n.toNat <<< 31) ||| (z.toNat <<< 30) ||| (c.toNat <<< 29) ||| (v.toNat <<< 28)) = v ∧
    check_condition 0x7 ((n.toNat <<< 31) ||| (z.toNat <<< 30) ||| (c.toNat <<< 29) ||| (v.toNat <<< 28)) = !v ∧
    check_condition 0x8 ((n.toNat <<< 31) ||| (z.toNat <<< 30) ||| (c.toNat <<< 29) ||| (v.toNat <<< 28)) = (c && !z) ∧
    check_condition 0x9 ((n.toNat <<< 31) ||| (z.toNat <<< 30) ||| (c.toNat <<< 29) ||| (v.toNat <<< 28)) = (!c || z) ∧
    check_condition 0xA ((n.toNat <<< 31) ||| (z.toNat <<< 30) ||| (c.toNat <<< 29) ||| (v.toNat <<< 28)) = (n == v) ∧
    check_condition 0xB ((n.toNat <<< 31) ||| (z.toNat <<< 30) ||| (c.toNat <<< 29) ||| (v.toNat <<< 28)) = (n != v) ∧
    check_condition 0xC ((n.toNat <<< 31) ||| (z.toNat <<< 30) ||| (c.toNat <<< 29) ||| (v.toNat <<< 28)) = (!z && (n == v)) ∧
    check_condition 0xD ((n.toNat <<< 31) ||| (z.toNat <<< 30) ||| (c.toNat <<< 29) ||| (v.toNat <<< 28)) = (z || (n != v)) ∧
    check_condition 0xE ((n.toNat <<< 31) ||| (z.toNat <<< 30) ||| (c.toNat <<< 29) ||| (v.toNat <<< 28)) = true := by
  decide

/-- C1: the claim fails against the code: the execution loops never consult
the barrel shifter and the retirement CPSR update clears both C and V.  On
AND r0, r0, immediate 0 (instruction 0xE2000000) with C=1 and V=1 (cpsr
0x30000000), both variants retire with cpsr 0x40000000: the resulting C bit is
0 where the shifter carry-out (an LSL amount-0 passthrough of the carry-in)
is 1, and the resulting V bit is 0 where the claim requires the
pre-instruction V of 1. -/
theorem c1_logical_flags_clobbered :
    (cycleA false ⟨[0x00, 0x00, 0x00, 0xE2], List.replicate 16 0, 0, 0x30000000⟩).map
        MachineA.cpsr = some 0x40000000 ∧
    (cycleB false ⟨[0x00, 0x00, 0x00, 0xE2], List.replicate 16 0, 0x30000000⟩).map
        MachineB.cpsr = some 0x40000000 ∧
    (0x40000000 >>> 29) &&& 1 = 0 ∧ (0x30000000 >>> 29) &&& 1 = 1 ∧
    (0x40000000 >>> 28) &&& 1 = 0 ∧ (0x30000000 >>> 28) &&& 1 = 1 := by
  decide

/-- C2: the claim fails against the code: MOV r1, immediate 5 (instruction
0xE3A01005) has the dedicated flag bit (bit 20) clear and is not one of the
four test-only opcodes, yet both variants rewrite the CPSR from 0x30000000 to
0, so a non-flag-setting instruction does not leave the CPSR untouched; the
flag update is applied to every retired instruction. -/
theorem c2_s_bit_ignored :
    (0xE3A01005 >>> 20) &&& 1 = 0 ∧
    ¬(0x8 ≤ (0xE3A01005 >>> 21) &&& 0xF ∧ (0xE3A01005 >>> 21) &&& 0xF ≤ 0xB) ∧
    (cycleA false ⟨[0x05, 0x10, 0xA0, 0xE3], List.replicate 16 0, 0, 0x30000000⟩).map
        MachineA.cpsr = some 0 ∧
    (cycleB false ⟨[0x05, 0x10, 0xA0, 0xE3], List.replicate 16 0, 0x30000000⟩).map
        MachineB.cpsr = some 0 ∧
    (0 : Nat) ≠ 0x30000000 := by
  decide

/-- C9: the claim fails against the code: a store through base register r1
holding address 100 against a 4-byte memory is not validated.  The cycle
raises an uncaught indexing error (modelled none), so the batch aborts with no
InvalidAddress value, no returned ExecutionState and no faulting address. -/
theorem c9_oob_store_uncaught :
    cycleA false ⟨[0x00, 0x00, 0x01, 0xE4], (List.replicate 16 0).set 1 100, 0, 0⟩ = none ∧
    cycleB false ⟨[0x00, 0x00, 0x01, 0xE4], (List.replicate 16 0).set 1 100, 0⟩ = none ∧
    runA false 3 ⟨[0x00, 0x00, 0x01, 0xE4], (List.replicate 16 0).set 1 100, 0, 0⟩ = none := by
  decide

/-- C4 counterexample (Py7TDMI variant): running MOV r15, immediate 12
(0xE3A0F00C) followed by two more cycles shows the fetch stream continuing at
address 4 (executing MOV r1, immediate 7 there) instead of the value 12
written to register 15: after one cycle the returned pc is 4 while index 15
of the register file holds 12, and after two cycles register 1 holds 7.  A
data-processing write to register 15 therefore does not change the next fetch
address in this variant, and the register file does not hold the current PC
at index 15. -/
theorem c4_counterexample_r15_not_pc_in_A :
    (cycleA false ⟨[0x0C, 0xF0, 0xA0, 0xE3, 0x07, 0x10, 0xA0, 0xE3, 0x09, 0x20, 0xA0, 0xE3],
        List.replicate 16 0, 0, 0⟩).map (fun s => (s.pc, s.regs.getD 15 0)) = some (4, 12) ∧
    (runA false 2 ⟨[0x0C, 0xF0, 0xA0, 0xE3, 0x07, 0x10, 0xA0, 0xE3, 0x09, 0x20, 0xA0, 0xE3],
        List.replicate 16 0, 0, 0⟩).map
        (fun s => (s.regs.getD 1 0, s.regs.getD 2 0, s.regs.getD 15 0, s.pc)) =
      some (7, 0, 12, 8) ∧
    (4 : Nat) ≠ 12 := by
  decide

/-- C5 counterexample: ASR by amount 1 of 0x80000000 returns the signed,
unmasked value -1073741824 (with carry-out 0), so the result is not always a
32-bit unsigned value as the claim states; its residue mod 2^32 is the
architectural 0xC0000000. -/
theorem c5_counterexample_asr_negative :
    barrel_shift 0x80000000 2 1 0 = (-1073741824, 0) ∧
    ¬(0 ≤ (barrel_shift 0x80000000 2 1 0).1 ∧
        (barrel_shift 0x80000000 2 1 0).1 < 2 ^ 32) ∧
    (barrel_shift 0x80000000 2 1 0).1 % (2 ^ 32 : Int) = 0xC0000000 := by
  decide

/-- C7 counterexample (PyTDMI7 variant): the branch-with-link instruction
0xEB80F000 (offset bit 23 set, offset bits 15..12 equal to 15) decodes with
rd = 15 and a register-writing opcode, so the always-running DP stage clobbers
register 15 before the branch stage reads it; executing it at address 0 leaves
link register 14 holding 0 instead of the required following-instruction
address 4. -/
theorem c7_counterexample_bl_link_clobbered :
    (cycleB false ⟨[0x00, 0xF0, 0x80, 0xEB], List.replicate 16 0, 0⟩).map
        (fun s => s.regs.getD 14 0) = some 0 ∧
    (0 : Nat) ≠ 0 + 4 := by
  decide

/-! Further helper lemmas about the stage structure of the two cycles. -/

/-- The register half of the DP stage, spelled out. -/
theorem dp_stage_fst (regs : List Nat) (cpsr instr : Nat) :
    (dp_stage regs cpsr instr).1 =
      if ((instr >>> 21) &&& 0xF == 0x8 || (instr >>> 21) &&& 0xF == 0x9 ||
          (instr >>> 21) &&& 0xF == 0xA || (instr >>> 21) &&& 0xF == 0xB) then regs
      else regs.set ((instr >>> 12) &&& 0xF) (dpres regs cpsr instr) := rfl

/-- The CPSR half of the DP stage, spelled out. -/
theorem dp_stage_snd (regs : List Nat) (cpsr instr : Nat) :
    (dp_stage regs cpsr instr).2 =
      (cpsr &&& 0x0FFFFFFF) ||| ((dpres regs cpsr instr >>> 31) <<< 31) |||
        ((if dpres regs cpsr instr == 0 then 1 else 0) <<< 30) := rfl

/-- The DP stage never changes the length of the register file. -/
theorem dp_stage_length (regs : List Nat) (cpsr instr : Nat) :
    (dp_stage regs cpsr instr).1.length = regs.length := by
  rw [dp_stage_fst]
  split
  · rfl
  · exact List.length_set ..

/-- Reading the slot just written. -/
theorem getD_set_self (l : List Nat) (i a : Nat) (h : i < l.length) :
    (l.set i a).getD i 0 = a := by
  simp [List.getD_eq_getElem?_getD, List.getElem?_set_self (by simpa using h)]

/-- Reading another slot is unaffected by a write. -/
theorem getD_set_ne (l : List Nat) (i j a : Nat) (h : i ≠ j) :
    (l.set i a).getD j 0 = l.getD j 0 := by
  simp [List.getD_eq_getElem?_getD, List.getElem?_set_ne h]

/-- A register distinct from the (non-test) destination, or any register under
a test-only opcode, survives the DP stage. -/
theorem dp_stage_getD_ne (regs : List Nat) (cpsr instr j : Nat)
    (h : (0x8 ≤ (instr >>> 21) &&& 0xF ∧ (instr >>> 21) &&& 0xF ≤ 0xB) ∨
      (instr >>> 12) &&& 0xF ≠ j) :
    (dp_stage regs cpsr instr).1.getD j 0 = regs.getD j 0 := by
  rw [dp_stage_fst]
  split
  · rfl
  · next hguard =>
    have hop : ¬(0x8 ≤ (instr >>> 21) &&& 0xF ∧ (instr >>> 21) &&& 0xF ≤ 0xB) := by
      intro hc
      apply hguard
      have h4 : (instr >>> 21) &&& 0xF = 8 ∨ (instr >>> 21) &&& 0xF = 9 ∨
          (instr >>> 21) &&& 0xF = 10 ∨ (instr >>> 21) &&& 0xF = 11 := by omega
      rcases h4 with h4 | h4 | h4 | h4 <;> simp [h4]
    exact getD_set_ne _ _ _ _ (h.resolve_left hop)

/-- A retired 32-bit cycle of the Py7TDMI variant is the branch/memory
dispatch applied to the DP stage output. -/
theorem cycleA_retired (m : MachineA) (instr : Nat)
    (hf : read_word m.memory m.pc = some instr)
    (hc : check_condition ((instr >>> 28) &&& 0xF) m.cpsr = true) :
    cycleA false m = branchMemA m.memory (dp_stage m.regs m.cpsr instr).1 (m.pc + 4)
      (dp_stage m.regs m.cpsr instr).2 instr ((instr >>> 12) &&& 0xF)
      ((instr >>> 16) &&& 0xF) := by
  simp [cycleA, hf, hc]

/-- A retired 32-bit cycle of the PyTDMI7 variant is the branch/memory
dispatch applied to the DP stage output over the register file whose slot 15
already holds the advanced PC. -/
theorem cycleB_retired (m : MachineB) (instr : Nat)
    (hf : read_word m.memory (m.regs.getD 15 0) = some instr)
    (hc : check_condition ((instr >>> 28) &&& 0xF) m.cpsr = true) :
    cycleB false m = branchMemB m.memory
      (dp_stage (m.regs.set 15 (m.regs.getD 15 0 + 4)) m.cpsr instr).1
      (dp_stage (m.regs.set 15 (m.regs.getD 15 0 + 4)) m.cpsr instr).2 instr
      ((instr >>> 12) &&& 0xF) ((instr >>> 16) &&& 0xF) := by
  unfold cycleB
  dsimp only
  rw [hf]
  simp [hc]

/-- The branch/memory dispatch of the Py7TDMI variant never touches the CPSR
it is handed. -/
theorem branchMemA_cpsr (mem regs : List Nat) (pc cpsr instr rd rn : Nat)
    (s : MachineA) (h : branchMemA mem regs pc cpsr instr rd rn = some s) :
    s.cpsr = cpsr := by
  unfold branchMemA at h
  dsimp only at h
  repeat' split at h
  all_goals first
    | (injection h with h2; rw [← h2])
    | exact Option.noConfusion h

/-- The branch/memory dispatch of the PyTDMI7 variant never touches the CPSR
it is handed. -/
theorem branchMemB_cpsr (mem regs : List Nat) (cpsr instr rd rn : Nat)
    (s : MachineB) (h : branchMemB mem regs cpsr instr rd rn = some s) :
    s.cpsr = cpsr := by
  unfold branchMemB at h
  dsimp only at h
  repeat' split at h
  all_goals first
    | (injection h with h2; rw [← h2])
    | exact Option.noConfusion h

/-- C6: for every data-processing opcode in 0x8..0xB (TST, TEQ, CMP, CMN) the
DP stage returns the register file unchanged -- no destination write for any
operand pair -- and preserves every CPSR bit outside the four flag bits, so
only the status flags may change. -/
theorem c6_test_only_no_register_write (regs : List Nat) (cpsr instr : Nat)
    (h : 0x8 ≤ (instr >>> 21) &&& 0xF ∧ (instr >>> 21) &&& 0xF ≤ 0xB) :
    (dp_stage regs cpsr instr).1 = regs ∧
    (dp_stage regs cpsr instr).2 &&& 0x0FFFFFFF = cpsr &&& 0x0FFFFFFF := by
  have hZ : (if dpres regs cpsr instr == 0 then 1 else 0) ≤ 1 := by
    split <;> omega
  constructor
  · rw [dp_stage_fst]
    have h4 : (instr >>> 21) &&& 0xF = 8 ∨ (instr >>> 21) &&& 0xF = 9 ∨
        (instr >>> 21) &&& 0xF = 10 ∨ (instr >>> 21) &&& 0xF = 11 := by omega
    rcases h4 with h4 | h4 | h4 | h4 <;> simp [h4]
  · rw [dp_stage_snd, cpsr_update_eq _ _ _ hZ, and_mask28, and_mask28]
    omega

/-- C6 witness: TST-class opcode 0xA at a concrete register file and CPSR. -/
theorem c6_witness :
    (dp_stage (List.replicate 16 0) 0x12345678 0x01400000).1 = List.replicate 16 0 ∧
    (dp_stage (List.replicate 16 0) 0x12345678 0x01400000).2 &&& 0x0FFFFFFF =
      0x12345678 &&& 0x0FFFFFFF :=
  c6_test_only_no_register_write (List.replicate 16 0) 0x12345678 0x01400000 (by decide)

/-- C8: a cycle whose condition check fails completes normally in both
variants and both fetch widths: the PC still advances by the fetch width, the
cycle consumes exactly one iteration of the bounded batch loop, and the
general registers, CPSR and memory are left unchanged (the SPSR never enters
jit_full_cpu at all). -/
theorem c8_condition_fail_normal_cycle
    (thumb : Bool) (n : Nat) (mA : MachineA) (mB : MachineB) (instrA instrB : Nat)
    (hfA : (if thumb then read_half mA.memory mA.pc else read_word mA.memory mA.pc) =
      some instrA)
    (hcA : check_condition ((instrA >>> 28) &&& 0xF) mA.cpsr = false)
    (hfB : (if thumb then read_half mB.memory (mB.regs.getD 15 0)
        else read_word mB.memory (mB.regs.getD 15 0)) = some instrB)
    (hcB : check_condition ((instrB >>> 28) &&& 0xF) mB.cpsr = false) :
    cycleA thumb mA =
      some ⟨mA.memory, mA.regs, mA.pc + (if thumb then 2 else 4), mA.cpsr⟩ ∧
    runA thumb (n + 1) mA =
      runA thumb n ⟨mA.memory, mA.regs, mA.pc + (if thumb then 2 else 4), mA.cpsr⟩ ∧
    cycleB thumb mB = some ⟨mB.memory,
      mB.regs.set 15 (mB.regs.getD 15 0 + (if thumb then 2 else 4)), mB.cpsr⟩ ∧
    runB thumb (n + 1) mB = runB thumb n ⟨mB.memory,
      mB.regs.set 15 (mB.regs.getD 15 0 + (if thumb then 2 else 4)), mB.cpsr⟩ := by
  have hA : cycleA thumb mA =
      some ⟨mA.memory, mA.regs, mA.pc + (if thumb then 2 else 4), mA.cpsr⟩ := by
    unfold cycleA
    rw [hfA]
    simp [hcA]
  have hB : cycleB thumb mB = some ⟨mB.memory,
      mB.regs.set 15 (mB.regs.getD 15 0 + (if thumb then 2 else 4)), mB.cpsr⟩ := by
    unfold cycleB
    dsimp only
    rw [hfB]
    simp [hcB]
  refine ⟨hA, ?_, hB, ?_⟩
  · show (cycleA thumb mA).bind (runA thumb n) = _
    rw [hA]
    rfl
  · show (cycleB thumb mB).bind (runB thumb n) = _
    rw [hB]
    rfl

/-- C8 witness: the all-zero instruction word (condition EQ) against a zero
CPSR fails its condition check in both variants. -/
theorem c8_witness :
    cycleA false ⟨[0, 0, 0, 0], List.replicate 16 0, 0, 0⟩ =
      some ⟨[0, 0, 0, 0], List.replicate 16 0, 0 + (if false then 2 else 4), 0⟩ ∧
    runA false 1 ⟨[0, 0, 0, 0], List.replicate 16 0, 0, 0⟩ =
      runA false 0 ⟨[0, 0, 0, 0], List.replicate 16 0, 0 + (if false then 2 else 4), 0⟩ ∧
    cycleB false ⟨[0, 0, 0, 0], List.replicate 16 0, 0⟩ =
      some ⟨[0, 0, 0, 0],
        (List.replicate 16 0).set 15 ((List.replicate 16 0).getD 15 0 + (if false then 2 else 4)),
        0⟩ ∧
    runB false 1 ⟨[0, 0, 0, 0], List.replicate 16 0, 0⟩ =
      runB false 0 ⟨[0, 0, 0, 0],
        (List.replicate 16 0).set 15 ((List.replicate 16 0).getD 15 0 + (if false then 2 else 4)),
        0⟩ :=
  c8_condition_fail_normal_cycle false 0 ⟨[0, 0, 0, 0], List.replicate 16 0, 0, 0⟩
    ⟨[0, 0, 0, 0], List.replicate 16 0, 0⟩ 0 0 (by decide) (by decide) (by decide) (by decide)

/-- C10: for every retired instruction, branch and load/store classes
included, the data-processing execute stage runs before the branch/memory
stage: the CPSR it produces has its C bit (29) and V bit (28) cleared to 0,
its N bit (31) equal to bit 31 of the DP result and its Z bit (30) set
exactly when the DP result is zero; unless the opcode field (bits 21-24)
decodes to 0x8..0xB the stage overwrites the register named by bits 12-15
with the DP result; and in both variants the CPSR of any retired cycle's
final state is exactly this DP-stage CPSR (the branch/memory stage never
changes it). -/
theorem c10_dp_stage_always_runs
    (regs : List Nat) (cpsr instr : Nat) (hb : ∀ x ∈ regs, x < 2 ^ 32) :
    ((dp_stage regs cpsr instr).2 >>> 29) &&& 1 = 0 ∧
    ((dp_stage regs cpsr instr).2 >>> 28) &&& 1 = 0 ∧
    ((dp_stage regs cpsr instr).2 >>> 31) &&& 1 = dpres regs cpsr instr >>> 31 ∧
    ((dp_stage regs cpsr instr).2 >>> 30) &&& 1 =
      (if dpres regs cpsr instr = 0 then 1 else 0) ∧
    (¬(0x8 ≤ (instr >>> 21) &&& 0xF ∧ (instr >>> 21) &&& 0xF ≤ 0xB) →
      (dp_stage regs cpsr instr).1 =
        regs.set ((instr >>> 12) &&& 0xF) (dpres regs cpsr instr)) ∧
    (∀ (m s : MachineA), m.regs = regs → m.cpsr = cpsr →
      read_word m.memory m.pc = some instr →
      check_condition ((instr >>> 28) &&& 0xF) cpsr = true →
      cycleA false m = some s → s.cpsr = (dp_stage regs cpsr instr).2) ∧
    (∀ (m s : MachineB),
      read_word m.memory (m.regs.getD 15 0) = some instr →
      check_condition ((instr >>> 28) &&& 0xF) m.cpsr = true →
      cycleB false m = some s →
      s.cpsr = (dp_stage (m.regs.set 15 (m.regs.getD 15 0 + 4)) m.cpsr instr).2) := by
  have hR := dpres_lt regs cpsr instr hb
  have hZle : (if dpres regs cpsr instr == 0 then 1 else 0) ≤ 1 := by split <;> omega
  have hEq := cpsr_update_eq cpsr (dpres regs cpsr instr >>> 31)
    (if dpres regs cpsr instr == 0 then 1 else 0) hZle
  have hN : dpres regs cpsr instr / 2 ^ 31 ≤ 1 := by omega
  refine ⟨?_, ?_, ?_, ?_, ?_, ?_, ?_⟩
  · rw [dp_stage_snd, hEq, shr_and_one]
    omega
  · rw [dp_stage_snd, hEq, shr_and_one]
    omega
  · rw [dp_stage_snd, hEq, shr_and_one, Nat.shiftRight_eq_div_pow]
    omega
  · rw [dp_stage_snd, hEq, shr_and_one]
    have hZZ : (if dpres regs cpsr instr == 0 then 1 else 0) =
        (if dpres regs cpsr instr = 0 then (1 : Nat) else 0) := by
      by_cases h : dpres regs cpsr instr = 0 <;> simp [h]
    rw [hZZ]
    have hZle2 : (if dpres regs cpsr instr = 0 then (1 : Nat) else 0) ≤ 1 := by
      split <;> omega
    omega
  · intro hop
    rw [dp_stage_fst]
    have hg : ((instr >>> 21) &&& 0xF == 0x8 || (instr >>> 21) &&& 0xF == 0x9 ||
        (instr >>> 21) &&& 0xF == 0xA || (instr >>> 21) &&& 0xF == 0xB) = false := by
      have h8 : (instr >>> 21) &&& 0xF ≠ 8 := by omega
      have h9 : (instr >>> 21) &&& 0xF ≠ 9 := by omega
      have h10 : (instr >>> 21) &&& 0xF ≠ 10 := by omega
      have h11 : (instr >>> 21) &&& 0xF ≠ 11 := by omega
      simp [h8, h9, h10, h11]
    rw [hg, if_neg (by simp)]
  · intro m s hregs hcpsr hf hc hcy
    rw [cycleA_retired m instr hf (by rw [hcpsr]; exact hc)] at hcy
    have hres := branchMemA_cpsr _ _ _ _ _ _ _ _ hcy
    rw [hres, hregs, hcpsr]
  · intro m s hf hc hcy
    rw [cycleB_retired m instr hf hc] at hcy
    exact branchMemB_cpsr _ _ _ _ _ _ _ hcy

/-- C10 witness: the flag-clearing facts of the DP stage at a concrete
register file, CPSR and instruction. -/
theorem c10_witness :
    ((dp_stage (List.replicate 16 0) 0x30000000 0xE3A01005).2 >>> 29) &&& 1 = 0 ∧
    ((dp_stage (List.replicate 16 0) 0x30000000 0xE3A01005).2 >>> 28) &&& 1 = 0 :=
  ⟨(c10_dp_stage_always_runs (List.replicate 16 0) 0x30000000 0xE3A01005 (by decide)).1,
   (c10_dp_stage_always_runs (List.replicate 16 0) 0x30000000 0xE3A01005 (by decide)).2.1⟩

/-- C4 amended: in the PyTDMI7 variant register 15 is the program counter --
a retired data-processing instruction with destination field 15 (outside the
branch and load/store classes and not test-only) leaves the DP result in
register 15, which the next fetch reads; in the Py7TDMI variant the program
counter is a separate variable that still advances by the fetch width, so the
same write lands in register 15 without changing the next fetch address. -/
theorem c4_amended_pc_location_by_variant :
    (∀ (m : MachineB) (instr : Nat),
      read_word m.memory (m.regs.getD 15 0) = some instr →
      check_condition ((instr >>> 28) &&& 0xF) m.cpsr = true →
      m.regs.length = 16 →
      ¬(0x8 ≤ (instr >>> 21) &&& 0xF ∧ (instr >>> 21) &&& 0xF ≤ 0xB) →
      (instr >>> 12) &&& 0xF = 15 →
      instr &&& 0x0F000000 ≠ 0x0A000000 →
      instr &&& 0x0F000000 ≠ 0x0B000000 →
      instr &&& 0x0C000000 ≠ 0x04000000 →
      (cycleB false m).map (fun s => s.regs.getD 15 0) =
        some (dpres (m.regs.set 15 (m.regs.getD 15 0 + 4)) m.cpsr instr)) ∧
    (∀ (m : MachineA) (instr : Nat),
      read_word m.memory m.pc = some instr →
      check_condition ((instr >>> 28) &&& 0xF) m.cpsr = true →
      m.regs.length = 16 →
      ¬(0x8 ≤ (instr >>> 21) &&& 0xF ∧ (instr >>> 21) &&& 0xF ≤ 0xB) →
      (instr >>> 12) &&& 0xF = 15 →
      instr &&& 0x0F000000 ≠ 0x0A000000 →
      instr &&& 0x0F000000 ≠ 0x0B000000 →
      instr &&& 0x0C000000 ≠ 0x04000000 →
      (cycleA false m).map (fun s => (s.pc, s.regs.getD 15 0)) =
        some (m.pc + 4, dpres m.regs m.cpsr instr)) := by
  constructor
  · intro m instr hf hc hlen hop hrd hn1 hn2 hn3
    rw [cycleB_retired m instr hf hc]
    unfold branchMemB
    dsimp only
    rw [if_neg (by simp [hn1]), if_neg (by simp [hn2]), if_neg (by simp [hn3])]
    simp only [Option.map]
    congr 1
    rw [dp_stage_fst]
    have hg : ((instr >>> 21) &&& 0xF == 0x8 || (instr >>> 21) &&& 0xF == 0x9 ||
        (instr >>> 21) &&& 0xF == 0xA || (instr >>> 21) &&& 0xF == 0xB) = false := by
      have h8 : (instr >>> 21) &&& 0xF ≠ 8 := by omega
      have h9 : (instr >>> 21) &&& 0xF ≠ 9 := by omega
      have h10 : (instr >>> 21) &&& 0xF ≠ 10 := by omega
      have h11 : (instr >>> 21) &&& 0xF ≠ 11 := by omega
      simp [h8, h9, h10, h11]
    rw [hg, if_neg (by simp), hrd]
    apply getD_set_self
    rw [List.length_set, hlen]
    omega
  · intro m instr hf hc hlen hop hrd hn1 hn2 hn3
    rw [cycleA_retired m instr hf hc]
    unfold branchMemA
    dsimp only
    rw [if_neg (by simp [hn1]), if_neg (by simp [hn2]), if_neg (by simp [hn3])]
    simp only [Option.map]
    congr 1
    rw [dp_stage_fst]
    have hg : ((instr >>> 21) &&& 0xF == 0x8 || (instr >>> 21) &&& 0xF == 0x9 ||
        (instr >>> 21) &&& 0xF == 0xA || (instr >>> 21) &&& 0xF == 0xB) = false := by
      have h8 : (instr >>> 21) &&& 0xF ≠ 8 := by omega
      have h9 : (instr >>> 21) &&& 0xF ≠ 9 := by omega
      have h10 : (instr >>> 21) &&& 0xF ≠ 10 := by omega
      have h11 : (instr >>> 21) &&& 0xF ≠ 11 := by omega
      simp [h8, h9, h10, h11]
    rw [hg, if_neg (by simp), hrd]
    congr 1
    apply getD_set_self
    rw [hlen]
    omega

/-- C4 amended witness: MOV r15, immediate 8 in the PyTDMI7 variant leaves 8
in register 15, the next fetch address. -/
theorem c4_amended_witness :
    (cycleB false ⟨[0x08, 0xF0, 0xA0, 0xE3], List.replicate 16 0, 0⟩).map
      (fun s => s.regs.getD 15 0) = some 8 :=
  (c4_amended_pc_location_by_variant.1 ⟨[0x08, 0xF0, 0xA0, 0xE3], List.replicate 16 0, 0⟩
    0xE3A0F008 (by decide) (by decide) (by decide) (by decide) (by decide) (by decide)
    (by decide) (by decide)).trans (by decide)

/-- C7 amended: after a retired branch-with-link, in the Py7TDMI variant the
link register always receives the branch address plus 4 and the new PC is the
post-increment PC plus the sign-extended 24-bit offset shifted left by 2,
modulo 2^32 (the convention shared with plain B); in the PyTDMI7 variant the
same holds provided the DP stage did not write register 15, that is, the
decoded opcode is test-only or the decoded rd field differs from 15. -/
theorem c7_amended_branch_link :
    (∀ (m : MachineA) (instr : Nat),
      read_word m.memory m.pc = some instr →
      check_condition ((instr >>> 28) &&& 0xF) m.cpsr = true →
      m.regs.length = 16 →
      instr &&& 0x0F000000 = 0x0B000000 →
      (cycleA false m).map (fun s => (s.regs.getD 14 0, s.pc)) =
        some (m.pc + 4, (m.pc + 4 + (sext24 instr <<< 2)) % 2 ^ 32)) ∧
    (∀ (m : MachineB) (instr : Nat),
      read_word m.memory (m.regs.getD 15 0) = some instr →
      check_condition ((instr >>> 28) &&& 0xF) m.cpsr = true →
      m.regs.length = 16 →
      instr &&& 0x0F000000 = 0x0B000000 →
      ((0x8 ≤ (instr >>> 21) &&& 0xF ∧ (instr >>> 21) &&& 0xF ≤ 0xB) ∨
        (instr >>> 12) &&& 0xF ≠ 15) →
      (cycleB false m).map (fun s => (s.regs.getD 14 0, s.regs.getD 15 0)) =
        some (m.regs.getD 15 0 + 4,
          (m.regs.getD 15 0 + 4 + (sext24 instr <<< 2)) % 2 ^ 32)) := by
  constructor
  · intro m instr hf hc hlen hBL
    rw [cycleA_retired m instr hf hc]
    unfold branchMemA
    dsimp only
    rw [if_neg (by simp [hBL]), if_pos (by simp [hBL])]
    simp only [Option.map]
    congr 1
    congr 1
    apply getD_set_self
    rw [dp_stage_length, hlen]
    omega
  · intro m instr hf hc hlen hBL hsafe
    rw [cycleB_retired m instr hf hc]
    unfold branchMemB
    dsimp only
    rw [if_neg (by simp [hBL]), if_pos (by simp [hBL])]
    simp only [Option.map]
    have hlen1 : (dp_stage (m.regs.set 15 (m.regs.getD 15 0 + 4)) m.cpsr instr).1.length =
        16 := by
      rw [dp_stage_length, List.length_set, hlen]
    have h15 : (dp_stage (m.regs.set 15 (m.regs.getD 15 0 + 4)) m.cpsr instr).1.getD 15 0 =
        m.regs.getD 15 0 + 4 := by
      rw [dp_stage_getD_ne _ _ _ _ hsafe]
      apply getD_set_self
      rw [hlen]
      omega
    congr 1
    congr 1
    · rw [getD_set_ne _ _ _ _ (by omega), getD_set_self _ _ _ (by rw [hlen1]; omega), h15]
    · rw [getD_set_self _ _ _ (by rw [List.length_set, hlen1]; omega),
        getD_set_ne _ _ _ _ (by omega), h15]

/-- C7 amended witness: BL with offset 1 at address 0 in the Py7TDMI variant
links 4 and branches to 8. -/
theorem c7_amended_witness :
    (cycleA false ⟨[0x01, 0x00, 0x00, 0xEB], List.replicate 16 0, 0, 0⟩).map
      (fun s => (s.regs.getD 14 0, s.pc)) = some (4, 8) :=
  (c7_amended_branch_link.1 ⟨[0x01, 0x00, 0x00, 0xEB], List.replicate 16 0, 0, 0⟩
    0xEB000001 (by decide) (by decide) (by decide) (by decide)).trans (by decide)

/-- C5 amended: for every 32-bit value, carry-in (CPSR bit 29), kind in
{LSL, LSR, ASR, ROR} and amount in 0..31, barrel_shift returns the
architectural carry-out of shift_spec exactly, and its result agrees with the
architectural result modulo 2^32; except for ASR with a nonzero amount on a
value with bit 31 set, the result equals the architectural 32-bit unsigned
value outright (in that one case the code returns the unmasked signed
shift). -/
theorem c5_amended_barrel_shift (val cpsr shift_type shift_amount : Nat)
    (hval : val < 2 ^ 32) (hst : shift_type < 4) (hamt : shift_amount < 32) :
    (barrel_shift val shift_type shift_amount cpsr).2 =
      (shift_spec val shift_type shift_amount ((cpsr >>> 29) &&& 1)).2 ∧
    (barrel_shift val shift_type shift_amount cpsr).1 % (2 ^ 32 : Int) =
      ((shift_spec val shift_type shift_amount ((cpsr >>> 29) &&& 1)).1 : Int) ∧
    ((shift_type = 2 ∧ shift_amount ≠ 0 ∧ 2 ^ 31 ≤ val) ∨
      (barrel_shift val shift_type shift_amount cpsr).1 =
        ((shift_spec val shift_type shift_amount ((cpsr >>> 29) &&& 1)).1 : Int)) := by
  have hC : (cpsr >>> 29) &&& 1 ≤ 1 := Nat.and_le_right
  have hst4 : shift_type = 0 ∨ shift_type = 1 ∨ shift_type = 2 ∨ shift_type = 3 := by omega
  rcases Nat.eq_zero_or_pos shift_amount with ha0 | hapos
  · subst ha0
    rcases hst4 with h | h | h | h <;> subst h
    · -- LSL amount 0: passthrough
      refine ⟨rfl, ?_, Or.inr rfl⟩
      show (val : Int) % (2 ^ 32 : Int) = ((val : Nat) : Int)
      exact Int.emod_eq_of_lt (Int.natCast_nonneg _) (by exact_mod_cast hval)
    · -- LSR amount 0: acts as LSR#32
      refine ⟨shr_and_one val 31, ?_, Or.inr ?_⟩
      · show (0 : Int) % (2 ^ 32 : Int) = ((0 : Nat) : Int)
        decide
      · show (0 : Int) = ((0 : Nat) : Int)
        decide
    · -- ASR amount 0: acts as ASR#32
      have h80 : (0x80000000 : Nat) = 2 ^ 31 := by norm_num
      by_cases hbit : val / 2 ^ 31 % 2 = 1
      · have hne : val &&& 0x80000000 ≠ 0 := by
          rw [h80]
          exact (and_two_pow_ne_zero_iff val 31).mpr hbit
        have hand : (val &&& 0x80000000 != 0) = true := by simpa using hne
        have hb1 : (barrel_shift val 2 0 cpsr).1 = 0xFFFFFFFF := by
          show (if (val &&& 0x80000000 != 0) = true then (0xFFFFFFFF : Int) else 0) = _
          rw [hand]
          simp
        have hs1 : (shift_spec val 2 0 ((cpsr >>> 29) &&& 1)).1 = 0xFFFFFFFF := by
          show (if val / 2 ^ 31 % 2 = 1 then (0xFFFFFFFF : Nat) else 0) = _
          rw [if_pos hbit]
        refine ⟨shr_and_one val 31, ?_, Or.inr ?_⟩
        · rw [hb1, hs1]
          decide
        · rw [hb1, hs1]
          decide
      · have hz : val &&& 2 ^ 31 = 0 := by
          by_contra hcon
          exact hbit ((and_two_pow_ne_zero_iff val 31).mp hcon)
        have hand : (val &&& 0x80000000 != 0) = false := by
          rw [h80, hz]
          decide
        have hb1 : (barrel_shift val 2 0 cpsr).1 = 0 := by
          show (if (val &&& 0x80000000 != 0) = true then (0xFFFFFFFF : Int) else 0) = _
          rw [hand]
          simp
        have hs1 : (shift_spec val 2 0 ((cpsr >>> 29) &&& 1)).1 = 0 := by
          show (if val / 2 ^ 31 % 2 = 1 then (0xFFFFFFFF : Nat) else 0) = _
          rw [if_neg hbit]
        refine ⟨shr_and_one val 31, ?_, Or.inr ?_⟩
        · rw [hb1, hs1]
          decide
        · rw [hb1, hs1]
          decide
    · -- ROR amount 0: acts as RRX
      have hv2 : val >>> 1 < 2 ^ 31 := by
        rw [Nat.shiftRight_eq_div_pow]
        omega
      have key : ((((cpsr >>> 29) &&& 1) <<< 31) ||| (val >>> 1)) &&& 0xFFFFFFFF
          = ((cpsr >>> 29) &&& 1) * 2 ^ 31 + val / 2 := by
        rw [and_mask32, Nat.shiftLeft_eq, Nat.mul_comm ((cpsr >>> 29) &&& 1) (2 ^ 31),
          ← Nat.mul_add_lt_is_or hv2 ((cpsr >>> 29) &&& 1),
          Nat.mod_eq_of_lt (by omega), Nat.shiftRight_eq_div_pow val 1, Nat.pow_one]
      have hb1 : (barrel_shift val 3 0 cpsr).1 =
          ((((((cpsr >>> 29) &&& 1) <<< 31) ||| (val >>> 1)) &&& 0xFFFFFFFF : Nat) : Int) := rfl
      have hs1 : (shift_spec val 3 0 ((cpsr >>> 29) &&& 1)).1 =
          ((cpsr >>> 29) &&& 1) * 2 ^ 31 + val / 2 := rfl
      refine ⟨Nat.and_one_is_mod val, ?_, Or.inr ?_⟩
      · rw [hb1, hs1, key]
        apply Int.emod_eq_of_lt (Int.natCast_nonneg _)
        have hlt : ((cpsr >>> 29) &&& 1) * 2 ^ 31 + val / 2 < 2 ^ 32 := by omega
        exact_mod_cast hlt
      · rw [hb1, hs1, key]
  · -- nonzero amounts
    obtain ⟨k, rfl⟩ : ∃ k, shift_amount = k + 1 := ⟨shift_amount - 1, by omega⟩
    rcases hst4 with h | h | h | h <;> subst h
    · -- LSL amounts 1..31
      have key : (val <<< (k + 1)) &&& 0xFFFFFFFF = val * 2 ^ (k + 1) % 2 ^ 32 := by
        rw [and_mask32, Nat.shiftLeft_eq]
      have hb1 : (barrel_shift val 0 (k + 1) cpsr).1 =
          (((val <<< (k + 1)) &&& 0xFFFFFFFF : Nat) : Int) := rfl
      have hs1 : (shift_spec val 0 (k + 1) ((cpsr >>> 29) &&& 1)).1 =
          val * 2 ^ (k + 1) % 2 ^ 32 := rfl
      refine ⟨shr_and_one val (32 - (k + 1)), ?_, Or.inr ?_⟩
      · rw [hb1, hs1, key]
        apply Int.emod_eq_of_lt (Int.natCast_nonneg _)
        have hlt : val * 2 ^ (k + 1) % 2 ^ 32 < 2 ^ 32 := Nat.mod_lt _ (by norm_num)
        exact_mod_cast hlt
      · rw [hb1, hs1, key]
    · -- LSR amounts 1..31
      have hdle := Nat.div_le_self val (2 ^ (k + 1))
      have key : (val >>> (k + 1)) &&& 0xFFFFFFFF = val / 2 ^ (k + 1) := by
        rw [and_mask32, Nat.shiftRight_eq_div_pow]
        apply Nat.mod_eq_of_lt
        omega
      have hb1 : (barrel_shift val 1 (k + 1) cpsr).1 =
          (((val >>> (k + 1)) &&& 0xFFFFFFFF : Nat) : Int) := rfl
      have hs1 : (shift_spec val 1 (k + 1) ((cpsr >>> 29) &&& 1)).1 =
          val / 2 ^ (k + 1) := rfl
      refine ⟨shr_and_one val (k + 1 - 1), ?_, Or.inr ?_⟩
      · rw [hb1, hs1, key]
        apply Int.emod_eq_of_lt (Int.natCast_nonneg _)
        have hlt : val / 2 ^ (k + 1) < 2 ^ 32 := by omega
        exact_mod_cast hlt
      · rw [hb1, hs1, key]
    · -- ASR amounts 1..31
      have hb1 : (barrel_shift val 2 (k + 1) cpsr).1 = pyShr (int32 val) (k + 1) := rfl
      by_cases hneg : val < 2 ^ 31
      · have hb0 : ¬(val / 2 ^ 31 % 2 = 1) := by
          have hd : val / 2 ^ 31 = 0 := Nat.div_eq_of_lt hneg
          omega
        have hs1 : (shift_spec val 2 (k + 1) ((cpsr >>> 29) &&& 1)).1 =
            val / 2 ^ (k + 1) := by
          show (if val / 2 ^ 31 % 2 = 1 then _ else _) = _
          rw [if_neg hb0]
        have hcode : pyShr (int32 val) (k + 1) = ((val / 2 ^ (k + 1) : Nat) : Int) := by
          unfold pyShr int32
          rw [if_pos hneg, Int.fdiv_eq_ediv _ (pow_nonneg (by norm_num) _),
            show ((2 : Int) ^ (k + 1)) = ((2 ^ (k + 1) : Nat) : Int) by push_cast; ring,
            ← Int.ofNat_ediv]
        have hdle := Nat.div_le_self val (2 ^ (k + 1))
        refine ⟨shr_and_one val (k + 1 - 1), ?_, Or.inr ?_⟩
        · rw [hb1, hcode, hs1]
          apply Int.emod_eq_of_lt (Int.natCast_nonneg _)
          have hlt : val / 2 ^ (k + 1) < 2 ^ 32 := by omega
          exact_mod_cast hlt
        · rw [hb1, hcode, hs1]
      · have hs1 : (shift_spec val 2 (k + 1) ((cpsr >>> 29) &&& 1)).1 =
            val / 2 ^ (k + 1) + (2 ^ 32 - 2 ^ (32 - (k + 1))) := by
          show (if val / 2 ^ 31 % 2 = 1 then _ else _) = _
          rw [if_pos (by omega)]
        have hpt : 2 ^ (32 - (k + 1)) * 2 ^ (k + 1) = 2 ^ 32 := by
          rw [← pow_add]
          congr 1
          omega
        have hq : val / 2 ^ (k + 1) < 2 ^ (32 - (k + 1)) := by
          rw [Nat.div_lt_iff_lt_mul (Nat.two_pow_pos _), hpt]
          exact hval
        have hple : 2 ^ (32 - (k + 1)) ≤ 2 ^ 31 :=
          Nat.pow_le_pow_right (by norm_num) (by omega)
        have hcode : pyShr (int32 val) (k + 1) =
            ((val / 2 ^ (k + 1) : Nat) : Int) - ((2 ^ (32 - (k + 1)) : Nat) : Int) := by
          unfold pyShr int32
          rw [if_neg hneg, Int.fdiv_eq_ediv _ (pow_nonneg (by norm_num) _)]
          have hpt2 : ((2 ^ (32 - (k + 1)) : Nat) : Int) * (2 : Int) ^ (k + 1) =
              (2 : Int) ^ 32 := by exact_mod_cast hpt
          have hsplit : (val : Int) - 2 ^ 32 =
              (val : Int) + (-(((2 ^ (32 - (k + 1)) : Nat) : Int))) * ((2 : Int) ^ (k + 1)) := by
            calc (val : Int) - 2 ^ 32 = (val : Int) + -((2 : Int) ^ 32) := by ring
              _ = (val : Int) + -(((2 ^ (32 - (k + 1)) : Nat) : Int) * (2 : Int) ^ (k + 1)) := by
                  rw [hpt2]
              _ = (val : Int) + (-(((2 ^ (32 - (k + 1)) : Nat) : Int))) * ((2 : Int) ^ (k + 1)) := by
                  ring
          rw [hsplit, Int.add_mul_ediv_right _ _ (pow_ne_zero _ (by norm_num)),
            show ((2 : Int) ^ (k + 1)) = ((2 ^ (k + 1) : Nat) : Int) by push_cast; ring,
            ← Int.ofNat_ediv]
          ring
        refine ⟨shr_and_one val (k + 1 - 1), ?_, Or.inl ⟨rfl, by omega, by omega⟩⟩
        rw [hb1, hcode, hs1]
        omega
    · -- ROR amounts 1..31
      have hpt : 2 ^ (32 - (k + 1)) * 2 ^ (k + 1) = 2 ^ 32 := by
        rw [← pow_add]
        congr 1
        omega
      have hq : val / 2 ^ (k + 1) < 2 ^ (32 - (k + 1)) := by
        rw [Nat.div_lt_iff_lt_mul (Nat.two_pow_pos _), hpt]
        exact hval
      have hr : val % 2 ^ (k + 1) < 2 ^ (k + 1) := Nat.mod_lt _ (Nat.two_pow_pos _)
      have hbound : 2 ^ (32 - (k + 1)) * (val % 2 ^ (k + 1)) + 2 ^ (32 - (k + 1)) ≤ 2 ^ 32 := by
        have h3 : 2 ^ (32 - (k + 1)) * (val % 2 ^ (k + 1) + 1) ≤
            2 ^ (32 - (k + 1)) * 2 ^ (k + 1) :=
          Nat.mul_le_mul_left _ (by omega)
        rw [hpt] at h3
        calc 2 ^ (32 - (k + 1)) * (val % 2 ^ (k + 1)) + 2 ^ (32 - (k + 1))
            = 2 ^ (32 - (k + 1)) * (val % 2 ^ (k + 1) + 1) := by ring
          _ ≤ 2 ^ 32 := h3
      have key : ((val >>> (k + 1)) ||| (val <<< (32 - (k + 1)))) &&& 0xFFFFFFFF
          = val / 2 ^ (k + 1) + (val % 2 ^ (k + 1)) * 2 ^ (32 - (k + 1)) := by
        rw [and_mask32, Nat.shiftRight_eq_div_pow, Nat.shiftLeft_eq,
          Nat.lor_comm, Nat.mul_comm val (2 ^ (32 - (k + 1))),
          ← Nat.mul_add_lt_is_or hq val]
        have hval_eq : 2 ^ (k + 1) * (val / 2 ^ (k + 1)) + val % 2 ^ (k + 1) = val :=
          Nat.div_add_mod val (2 ^ (k + 1))
        have hexp : 2 ^ (32 - (k + 1)) * val + val / 2 ^ (k + 1)
            = 2 ^ 32 * (val / 2 ^ (k + 1)) +
              (2 ^ (32 - (k + 1)) * (val % 2 ^ (k + 1)) + val / 2 ^ (k + 1)) := by
          calc 2 ^ (32 - (k + 1)) * val + val / 2 ^ (k + 1)
              = 2 ^ (32 - (k + 1)) * (2 ^ (k + 1) * (val / 2 ^ (k + 1)) + val % 2 ^ (k + 1)) +
                val / 2 ^ (k + 1) := by rw [hval_eq]
            _ = (2 ^ (32 - (k + 1)) * 2 ^ (k + 1)) * (val / 2 ^ (k + 1)) +
                (2 ^ (32 - (k + 1)) * (val % 2 ^ (k + 1)) + val / 2 ^ (k + 1)) := by ring
            _ = 2 ^ 32 * (val / 2 ^ (k + 1)) +
                (2 ^ (32 - (k + 1)) * (val % 2 ^ (k + 1)) + val / 2 ^ (k + 1)) := by rw [hpt]
        rw [hexp, Nat.mul_add_mod, Nat.mod_eq_of_lt (by omega)]
        ring
      have hb1 : (barrel_shift val 3 (k + 1) cpsr).1 =
          ((((val >>> (k + 1)) ||| (val <<< (32 - (k + 1)))) &&& 0xFFFFFFFF : Nat) : Int) := rfl
      have hs1 : (shift_spec val 3 (k + 1) ((cpsr >>> 29) &&& 1)).1 =
          val / 2 ^ (k + 1) + (val % 2 ^ (k + 1)) * 2 ^ (32 - (k + 1)) := rfl
      refine ⟨shr_and_one val (k + 1 - 1), ?_, Or.inr ?_⟩
      · rw [hb1, hs1, key]
        apply Int.emod_eq_of_lt (Int.natCast_nonneg _)
        have hlt : val / 2 ^ (k + 1) + (val % 2 ^ (k + 1)) * 2 ^ (32 - (k + 1)) < 2 ^ 32 := by
          have hcomm : (val % 2 ^ (k + 1)) * 2 ^ (32 - (k + 1)) =
              2 ^ (32 - (k + 1)) * (val % 2 ^ (k + 1)) := Nat.mul_comm _ _
          omega
        exact_mod_cast hlt
      · rw [hb1, hs1, key]

/-- C5 amended witness: LSL by 1 of the value 5 with carry-in 0. -/
theorem c5_amended_witness :
    (barrel_shift 5 0 1 0).2 = (shift_spec 5 0 1 ((0 >>> 29) &&& 1)).2 ∧
    (barrel_shift 5 0 1 0).1 % (2 ^ 32 : Int) =
      ((shift_spec 5 0 1 ((0 >>> 29) &&& 1)).1 : Int) ∧
    (((0 : Nat) = 2 ∧ (1 : Nat) ≠ 0 ∧ 2 ^ 31 ≤ 5) ∨
      (barrel_shift 5 0 1 0).1 = ((shift_spec 5 0 1 ((0 >>> 29) &&& 1)).1 : Int)) :=
  c5_amended_barrel_shift 5 0 0 1 (by norm_num) (by norm_num) (by norm_num)

end Py7
